import Mathlib

/-!
Verification development for the VK/OK/Telegram post-harvesting pipeline
(`text_parse.py`).  The Python source is shallowly embedded: pure logic is
translated to Lean functions; network I/O is abstracted as response oracles
passed in as function arguments; the mutable `stop_flag` is passed as an
explicit boolean (per observation point where the source re-reads it);
spreadsheet state is a list of named sheets.  Timing effects (`time.sleep`)
have no observable value and are not modelled.
-/

namespace TextParse

/-- Module-level constant `MAX_POSTS = 100`. -/
def MAX_POSTS : Nat := 100

/-- Module-level constant `MAX_WORKERS = 5`. -/
def MAX_WORKERS : Nat := 5

/-- Module-level constant `MAX_ATTEMPTS = 3`. -/
def MAX_ATTEMPTS : Nat := 3

/-- Module-level constant `BACKOFF_FACTOR = 2` (only affects sleep durations). -/
def BACKOFF_FACTOR : Nat := 2

/-- One loaded community row, as built in `load_communities_file`:
dict with keys `original_link`, `domain`, `name`. -/
structure Community where
  original_link : String
  domain : String
  name : String
  deriving DecidableEq, Repr

/-- One VK wall post as consumed by the pipeline.  The source reads the JSON
fields `id`, `owner_id`, `text`, `date` (unix timestamp), and the nested
`views/likes/reposts -> count` values (with default 0); we flatten the counts
into plain fields. -/
structure Post where
  id : Int
  owner_id : Int
  text : String
  date : Int
  views : Nat
  likes : Nat
  reposts : Nat
  deriving DecidableEq, Repr

/-- One match dict produced by `search_text_in_posts`.  The source formats
`date` through `datetime.fromtimestamp(..).strftime(..)` (a display-only,
timezone-dependent rendering); we keep the underlying timestamp. -/
structure MatchResult where
  post_id : Int
  owner_id : Int
  text : String
  date : Int
  views : Nat
  likes : Nat
  reposts : Nat
  link : String
  found_words : String
  deriving DecidableEq, Repr

/-- One entry of the `empty_communities` list built in `run_parsing`
(dict keys `original_link`, `name`, `reason`; `reason` may be absent in
general dicts, hence an `Option`). -/
structure EmptyOutcome where
  original_link : String
  name : String
  reason : Option String
  deriving DecidableEq, Repr

/-- One entry of the `results` list of `run_parsing`:
`{'community': .., 'results': ..}` as returned by `process_community`. -/
structure CommunityResult where
  community : Community
  results : List MatchResult
  deriving DecidableEq, Repr

/-! ## Date selection (`get_selected_dates`)

Python `datetime.date` values are totally ordered and shifted by
`timedelta(days=1)`; this is order-isomorphic to an integer day number, so
dates are embedded as `Int` day counts (see `days_from_civil` below for the
proleptic-Gregorian day number of a concrete calendar date). -/

/-- Day number of a proleptic-Gregorian calendar date (days since 1970-01-01),
the standard civil-from-days inverse algorithm.  Used only to give concrete
calendar dates a meaning as integers. -/
def days_from_civil (y m d : Int) : Int :=
  let yy := if m ≤ 2 then y - 1 else y
  let era := (if 0 ≤ yy then yy else yy - 399) / 400
  let yoe := yy - era * 400
  let mp := (m + 9) % 12
  let doy := (153 * mp + 2) / 5 + d - 1
  let doe := yoe * 365 + yoe / 4 - yoe / 100 + doy
  era * 146097 + doe - 719468

/-- `VKParser.get_selected_dates`, over day numbers: equal dates give
`(start, end + 1 day)`; reversed dates give `(end, start + 1 day)`;
otherwise the pair is returned unchanged. -/
def get_selected_dates (start_date end_date : Int) : Int × Int :=
  if start_date = end_date then (start_date, end_date + 1)
  else if start_date > end_date then (end_date, start_date + 1)
  else (start_date, end_date)

/-! ## Rate-limited request gateway (`make_vk_request`)

The network is abstracted as an oracle `resp : Nat → VKResponse` giving the
outcome of the i-th HTTP request actually issued.  `time.sleep` calls are
timing-only.  A JSON body whose decoding raises is outside the modelled
outcomes (the source would propagate that exception). -/

/-- Outcome of one HTTP attempt inside `make_vk_request`: a successful JSON
payload (abstracted to a `Nat` tag), a remote payload containing an `error`
object with a numeric code, or a `requests.exceptions.RequestException`. -/
inductive VKResponse where
  | ok (data : Nat)
  | apiError (code : Nat)
  | networkError
  deriving DecidableEq, Repr

/-- The error codes treated as fatal by `make_vk_request`
(`error['error_code'] in [5, 15, 18, 100]`). -/
def fatalCodes : List Nat := [5, 15, 18, 100]

/-- Result of a whole `make_vk_request` call.  `VKAPIError` raised on a fatal
code carries the code; the exhaustion `VKAPIError` message carries the number
of attempts made.  We record the attempt count in both constructors: the
result being `fatalError c n` certifies that exactly `n` requests were issued
before raising. -/
inductive VKRequestResult where
  | success (data : Nat)
  | fatalError (code : Nat) (attemptsMade : Nat)
  | exhausted (attemptsMade : Nat)
  deriving DecidableEq, Repr

/-- The `for attempt in range(MAX_ATTEMPTS)` loop of `make_vk_request`:
`fuel` is the number of loop iterations remaining, `made` the number of
requests already issued.  Code 6 (rate limited) sleeps and `continue`s;
codes 5/15/18/100 raise `VKAPIError` at once; any other error code and any
`RequestException` fall through to the next iteration; a payload without an
`error` key is returned. -/
def vkAttemptLoop (resp : Nat → VKResponse) : Nat → Nat → VKRequestResult
  | 0, made => .exhausted made
  | fuel + 1, made =>
    match resp made with
    | .ok d => .success d
    | .networkError => vkAttemptLoop resp fuel (made + 1)
    | .apiError code =>
      if code = 6 then vkAttemptLoop resp fuel (made + 1)
      else if fatalCodes.contains code then .fatalError code (made + 1)
      else vkAttemptLoop resp fuel (made + 1)

/-- `VKParser.make_vk_request`: run the attempt loop with the
`MAX_ATTEMPTS` budget. -/
def make_vk_request (resp : Nat → VKResponse) : VKRequestResult :=
  vkAttemptLoop resp MAX_ATTEMPTS 0

/-- A response the gateway retries silently: a transport failure or a remote
error whose code is not fatal (this includes code 6, rate limited). -/
def isTransientResp : VKResponse → Bool
  | .ok _ => false
  | .networkError => true
  | .apiError code => !(fatalCodes.contains code)

/-- A remote error response with one of the fatal codes. -/
def isFatalResp : VKResponse → Bool
  | .apiError code => fatalCodes.contains code
  | _ => false

/-- A remote error response with code 6 (`Too many requests`). -/
def isRateLimitedResp : VKResponse → Bool
  | .apiError code => code = 6
  | _ => false

/-- The error code carried by a remote error response (0 otherwise). -/
def respErrorCode : VKResponse → Nat
  | .apiError code => code
  | _ => 0

/-! ## Keyword matcher (`search_text_in_posts`) -/

/-- ASCII lowercasing of one character, the effective behaviour of Python
`str.lower()` on the ASCII range handled by the link patterns and keyword
comparisons modelled here. -/
def asciiLowerChar (c : Char) : Char :=
  if 65 ≤ c.toNat ∧ c.toNat ≤ 90 then Char.ofNat (c.toNat + 32) else c

/-- `str.lower()` on a whole string (ASCII model, character-wise). -/
def lowerStr (s : String) : String :=
  String.mk (s.toList.map asciiLowerChar)

/-- Whether the first list is a prefix of the second (boolean). -/
def prefixOf : List Char → List Char → Bool
  | [], _ => true
  | _ :: _, [] => false
  | a :: as, b :: bs => a = b && prefixOf as bs

/-- Whether `w` occurs as a contiguous substring of `s`
(Python `w in s` on strings). -/
def containsSub (w : List Char) : List Char → Bool
  | [] => prefixOf w []
  | c :: rest => prefixOf w (c :: rest) || containsSub w (c :: rest).tail

/-- Python `w in text` for strings. -/
def strContains (text w : String) : Bool :=
  containsSub w.toList text.toList

/-- Python `s.startswith(pre)` for strings. -/
def strStartsWith (s pre : String) : Bool :=
  prefixOf pre.toList s.toList

/-- The post permalink built by `search_text_in_posts`:
`https://vk.com/wall{owner_id}_{post_id}`. -/
def postLink (p : Post) : String :=
  "https://vk.com/wall" ++ toString p.owner_id ++ "_" ++ toString p.id

/-- The result dict appended by `search_text_in_posts` for a matching post;
`found` is the list of (already lowercased) keywords found in the post. -/
def mkMatchResult (p : Post) (found : List String) : MatchResult :=
  { post_id := p.id
    owner_id := p.owner_id
    text := p.text
    date := p.date
    views := p.views
    likes := p.likes
    reposts := p.reposts
    link := postLink p
    found_words := String.intercalate ", " found }

/-- The `for post in posts` loop of `search_text_in_posts` with the stop flag
clear: lowercase the post body, keep the lowercased keywords occurring in it
(in keyword order), and append a result exactly when at least one was found. -/
def searchLoop (sts : List String) : List Post → List MatchResult
  | [] => []
  | p :: rest =>
    let text := lowerStr p.text
    let found := sts.filter (fun w => strContains text w)
    if found.isEmpty then searchLoop sts rest
    else mkMatchResult p found :: searchLoop sts rest

/-- `VKParser.search_text_in_posts`.  The source checks `self.stop_flag` at
each post; `stopFlag` is its (constant) value during this call — a `true`
flag abandons the scan with the results collected so far, which from the
start of the loop is the empty list. -/
def search_text_in_posts (stopFlag : Bool) (posts : List Post)
    (search_texts : List String) : List MatchResult :=
  if stopFlag then []
  else searchLoop (search_texts.map lowerStr) posts

/-! ## Wall pagination (`get_group_posts`)

`pages k` is the outcome of the k-th `wall.get` request: the items list of a
successful response, a falsy/`response`-less payload, or a raised exception
(`make_vk_request` failures land here via the `except` clause).  `stopFlag k`
is the value of `self.stop_flag` at the k-th loop-condition check.  The
`start_ts`/`end_ts` bounds come from `time.mktime` on the chosen dates and are
taken as integer inputs. -/

/-- Outcome of one `wall.get` page request as seen by `get_group_posts`. -/
inductive PageResult where
  | ok (items : List Post)
  | noResponse
  | fetchError

/-- The `while offset < MAX_POSTS and not self.stop_flag` loop of
`get_group_posts`: keep the posts of each page whose timestamp lies in
`[start_ts, end_ts)`, advance `offset` by the page length, and stop on a
page shorter than 100 items, on a missing response, or on an exception.
`fuel` bounds the iterations (the loop terminates because a continuing
iteration adds at least 100 to `offset`). -/
def ggpLoop (pages : Nat → PageResult) (stopFlag : Nat → Bool)
    (startTs endTs : Int) : Nat → Nat → Nat → List Post → List Post
  | 0, _, _, acc => acc
  | fuel + 1, k, offset, acc =>
    if offset < MAX_POSTS && !(stopFlag k) then
      match pages k with
      | .fetchError => acc
      | .noResponse => acc
      | .ok items =>
        let acc2 := acc ++ items.filter (fun p => decide (startTs ≤ p.date ∧ p.date < endTs))
        if items.length < 100 then acc2
        else ggpLoop pages stopFlag startTs endTs fuel (k + 1) (offset + items.length) acc2
    else acc

/-- `VKParser.get_group_posts`: reject non-`vk_` domains, then run the
pagination loop from offset 0. -/
def get_group_posts (pages : Nat → PageResult) (stopFlag : Nat → Bool)
    (domain : String) (startTs endTs : Int) : List Post :=
  if !(strStartsWith domain "vk_") then []
  else ggpLoop pages stopFlag startTs endTs (MAX_POSTS + 1) 0 0 []

/-! ## Harvest run (`process_community` / `run_parsing`)

The three per-platform fetchers (`get_group_posts`, `get_telegram_posts`,
`get_ok_posts`) all reduce to "ask the platform backend for this domain's
posts"; the backend is abstracted as one oracle `fetch : String → List Post`
keyed by the (prefixed) domain.  A fetcher that raises is caught by
`process_community`'s `except` clause and yields `None`; the oracle is total,
so that path is not exercised here. -/

/-- `VKParser.process_community` (the later, overriding definition at line
703): return `None` when the stop flag is set, dispatch on the domain prefix
(unknown prefixes return `None`), return `None` when no posts or no keyword
results, else the `{'community': .., 'results': ..}` dict. -/
def process_community (fetch : String → List Post) (stopFlag : Bool)
    (search_texts : List String) (comm : Community) : Option CommunityResult :=
  if stopFlag then none
  else if strStartsWith comm.domain "vk_" ∨ strStartsWith comm.domain "tg_"
      ∨ strStartsWith comm.domain "ok_" then
    let posts := fetch comm.domain
    if posts.isEmpty then none
    else
      let results := search_text_in_posts stopFlag posts search_texts
      if results.isEmpty then none else some ⟨comm, results⟩
  else none

/-- The collection loop of `run_parsing`: one future per community, a `None`
outcome appended to `empty_communities` with reason `'Нет совпадений'`, a
non-`None` outcome appended to `results`.  (`as_completed` yields futures in
completion order; the claims quantify over counts and memberships, which do
not depend on that order, so submission order is used.) -/
def runLoop (fetch : String → List Post) (stopFlag : Bool)
    (search_texts : List String) :
    List Community → List CommunityResult × List EmptyOutcome
  | [] => ([], [])
  | comm :: rest =>
    match process_community fetch stopFlag search_texts comm with
    | some r =>
      let p := runLoop fetch stopFlag search_texts rest
      (r :: p.1, p.2)
    | none =>
      let p := runLoop fetch stopFlag search_texts rest
      (p.1, ⟨comm.original_link, comm.name, some "Нет совпадений"⟩ :: p.2)

/-- `VKParser.run_parsing` up to report creation: the source first filters
the loaded communities to those whose domain starts with `vk_`
(`vk_communities = [comm for comm in self.communities if
comm['domain'].startswith('vk_')]`) and only submits those; a set stop flag
makes the collection loop break immediately. -/
def run_parsing (fetch : String → List Post) (stopFlag : Bool)
    (communities : List Community) (search_texts : List String) :
    List CommunityResult × List EmptyOutcome :=
  let vk_communities := communities.filter (fun c => strStartsWith c.domain "vk_")
  if stopFlag then ([], [])
  else runLoop fetch stopFlag search_texts vk_communities

/-! ## Domain resolver (`extract_domain_from_link`)

Each source pattern is a literal/wildcard prefix followed by one greedy
character-class group (`([a-z0-9_\-\.]+)` or `(\d+)`), or that class group
anchored at the end of the string.  For such patterns `re.search` returns
the leftmost position where the prefix matches and at least one class
character follows, capturing the maximal class run. -/

/-- One token of a pattern prefix: a literal character or the `.` wildcard
(as in `r'telegram.me (...)'`). -/
inductive RTok where
  | lit (c : Char)
  | anyChar

/-- Characters of the class `[a-z0-9_\-\.]`. -/
def handleChar (c : Char) : Bool :=
  (97 ≤ c.toNat && c.toNat ≤ 122) || (48 ≤ c.toNat && c.toNat ≤ 57)
    || c = '_' || c = '-' || c = '.'

/-- Characters of the class `\d`. -/
def digitChar (c : Char) : Bool :=
  48 ≤ c.toNat && c.toNat ≤ 57

/-- Match a token list against the head of the input; on success return the
rest of the input. -/
def matchToks : List RTok → List Char → Option (List Char)
  | [], s => some s
  | _ :: _, [] => none
  | .lit c :: ts, x :: s => if x = c then matchToks ts s else none
  | .anyChar :: ts, _ :: s => matchToks ts s

/-- Maximal run of class characters at the head of the input. -/
def takeClass (cls : Char → Bool) : List Char → List Char
  | [] => []
  | c :: rest => if cls c then c :: takeClass cls rest else []

/-- `re.search` of pattern `toks(cls+)`: scan positions left to right; at the
first position where the tokens match and a nonempty class run follows,
capture that run. -/
def searchCap (toks : List RTok) (cls : Char → Bool) : List Char → Option (List Char)
  | [] => none
  | c :: rest =>
    match matchToks toks (c :: rest) with
    | some rem =>
      let run := takeClass cls rem
      if run.isEmpty then searchCap toks cls rest else some run
    | none => searchCap toks cls rest

/-- `re.search` of the end-anchored pattern `([a-z0-9_\-\.]+)$`: the maximal
nonempty suffix of class characters. -/
def searchSuffix (cls : Char → Bool) (s : List Char) : Option (List Char) :=
  let run := (takeClass cls s.reverse).reverse
  if run.isEmpty then none else some run

/-- A whole source pattern: a searched prefix-plus-class pattern, or the
end-anchored bare-handle pattern. -/
inductive PatSpec where
  | search (toks : List RTok) (digitsOnly : Bool)
  | suffixPat

/-- Run one pattern against the (normalized) link characters. -/
def runPat : PatSpec → List Char → Option (List Char)
  | .search toks digitsOnly, s =>
    searchCap toks (if digitsOnly then digitChar else handleChar) s
  | .suffixPat, s => searchSuffix handleChar s

/-- First pattern of the list that matches (the source tries each list in
order and returns on the first hit). -/
def firstPat (ps : List PatSpec) (s : List Char) : Option (List Char) :=
  match ps with
  | [] => none
  | p :: rest =>
    match runPat p s with
    | some d => some d
    | none => firstPat rest s

/-- Literal tokens of a pattern prefix. -/
def litToks (s : String) : List RTok :=
  s.toList.map RTok.lit

/-- `patterns_vk`: `vk\.com/(..)`, `club(\d+)`, `public(\d+)`, and the
bare-handle fallback `([a-z0-9_\-\.]+)$`. -/
def patterns_vk : List PatSpec :=
  [ .search (litToks "vk.com/") false
  , .search (litToks "club") true
  , .search (litToks "public") true
  , .suffixPat ]

/-- `patterns_ok`. -/
def patterns_ok : List PatSpec :=
  [ .search (litToks "ok.ru/") false
  , .search (litToks "group/") false
  , .search (litToks "topic/") false
  , .search (litToks "profile/") false
  , .search (litToks "video/") false
  , .search (litToks "statuses/") false ]

/-- `patterns_tg`; note the first source pattern is `r'telegram.me (..)'`
with an unescaped `.` (any character) and a literal space. -/
def patterns_tg : List PatSpec :=
  [ .search (litToks "telegram" ++ [RTok.anyChar] ++ litToks "me ") false
  , .search (litToks "tg.me/") false
  , .search (litToks "t.me/") false
  , .search (litToks "telegram.org/") false ]

/-- Python whitespace characters removed by `str.strip()`. -/
def pyWs (c : Char) : Bool :=
  c.toNat = 32 || (9 ≤ c.toNat && c.toNat ≤ 13)

/-- Python `str.strip()`. -/
def pyStrip (s : String) : String :=
  String.mk (((s.toList.dropWhile pyWs).reverse.dropWhile pyWs).reverse)

/-- The normalization step of `extract_domain_from_link`:
`str(link).strip().lower()`, as a character list. -/
def normalizeLink (link : String) : List Char :=
  (lowerStr (pyStrip link)).toList

/-- `VKParser.extract_domain_from_link`: empty input gives `None`; otherwise
try the VK patterns, then the OK patterns, then the TG patterns, prefixing
the captured group with `vk_` / `ok_` / `tg_`; `None` when nothing matches. -/
def extract_domain_from_link (link : String) : Option String :=
  if link = "" then none
  else
    let s := normalizeLink link
    match firstPat patterns_vk s with
    | some d => some ("vk_" ++ String.mk d)
    | none =>
      match firstPat patterns_ok s with
      | some d => some ("ok_" ++ String.mk d)
      | none =>
        match firstPat patterns_tg s with
        | some d => some ("tg_" ++ String.mk d)
        | none => none

/-! ## Content-identity hash (`calculate_communities_hash`)

The source computes `hashlib.md5(json.dumps(self.communities,
sort_keys=True).encode('utf-8')).hexdigest()`.  Both `json.dumps` (with its
default separators and `ensure_ascii=True` escaping, keys of each community
dict sorted to `domain`, `name`, `original_link`) and MD5 are embedded in
full so that the hash of concrete lists is computable. -/

/-- Lowercase hex digit for a value below 16. -/
def hexDigit (n : Nat) : Char :=
  if n < 10 then Char.ofNat (48 + n) else Char.ofNat (87 + n)

/-- Four lowercase hex digits of a value below 65536 (as in `\uXXXX`). -/
def hex4 (n : Nat) : String :=
  String.mk [hexDigit (n / 4096 % 16), hexDigit (n / 256 % 16),
    hexDigit (n / 16 % 16), hexDigit (n % 16)]

/-- JSON escaping of one character, following `json.dumps` with its default
`ensure_ascii=True`: the two-character escapes for quote, backslash and the
common control characters, `\uXXXX` for other control and all non-ASCII
characters (surrogate pairs above the BMP). -/
def jsonEscChar (c : Char) : String :=
  let n := c.toNat
  if c = '\\' then "\\\\"
  else if c = '"' then "\\\""
  else if n = 8 then "\\b"
  else if n = 9 then "\\t"
  else if n = 10 then "\\n"
  else if n = 12 then "\\f"
  else if n = 13 then "\\r"
  else if n < 32 then "\\u" ++ hex4 n
  else if n < 127 then String.mk [c]
  else if n < 65536 then "\\u" ++ hex4 n
  else "\\u" ++ hex4 (55296 + (n - 65536) / 1024)
    ++ "\\u" ++ hex4 (56320 + (n - 65536) % 1024)

/-- `json.dumps` of a string value. -/
def jsonStr (s : String) : String :=
  "\"" ++ String.join (s.toList.map jsonEscChar) ++ "\""

/-- `json.dumps` of one community dict with `sort_keys=True`: the keys
`original_link`, `domain`, `name` are emitted in sorted order
`domain`, `name`, `original_link`, with the default `", "` / `": "`
separators. -/
def communityJson (c : Community) : String :=
  "\x7b\"domain\": " ++ jsonStr c.domain
    ++ ", \"name\": " ++ jsonStr c.name
    ++ ", \"original_link\": " ++ jsonStr c.original_link ++ "\x7d"

/-- `json.dumps(communities, sort_keys=True)` for the whole list. -/
def communitiesJson (cs : List Community) : String :=
  "[" ++ String.intercalate ", " (cs.map communityJson) ++ "]"

/-- UTF-8 encoding of one character (`str.encode('utf-8')`). -/
def utf8Char (c : Char) : List Nat :=
  let n := c.toNat
  if n < 128 then [n]
  else if n < 2048 then [192 + n / 64, 128 + n % 64]
  else if n < 65536 then [224 + n / 4096, 128 + n / 64 % 64, 128 + n % 64]
  else [240 + n / 262144, 128 + n / 4096 % 64, 128 + n / 64 % 64, 128 + n % 64]

/-- UTF-8 encoding of a string as a byte list. -/
def utf8Bytes (s : String) : List Nat :=
  (s.toList.map utf8Char).flatten

/-! ### MD5 (RFC 1321), over byte lists, words as `Nat` mod 2^32 -/

/-- 32-bit left rotation (input below 2^32). -/
def rotl32 (x n : Nat) : Nat :=
  ((x <<< n) % 4294967296) ||| (x >>> (32 - n))

/-- MD5 round function F. -/
def md5F (b c d : Nat) : Nat := (b &&& c) ||| ((b ^^^ 4294967295) &&& d)

/-- MD5 round function G. -/
def md5G (b c d : Nat) : Nat := (b &&& d) ||| (c &&& (d ^^^ 4294967295))

/-- MD5 round function H. -/
def md5H (b c d : Nat) : Nat := b ^^^ c ^^^ d

/-- MD5 round function I. -/
def md5I (b c d : Nat) : Nat := c ^^^ (b ||| (d ^^^ 4294967295))

/-- MD5 sine-derived constant table K. -/
def md5K : List Nat :=
  [ 0xd76aa478, 0xe8c7b756, 0x242070db, 0xc1bdceee
  , 0xf57c0faf, 0x4787c62a, 0xa8304613, 0xfd469501
  , 0x698098d8, 0x8b44f7af, 0xffff5bb1, 0x895cd7be
  , 0x6b901122, 0xfd987193, 0xa679438e, 0x49b40821
  , 0xf61e2562, 0xc040b340, 0x265e5a51, 0xe9b6c7aa
  , 0xd62f105d, 0x02441453, 0xd8a1e681, 0xe7d3fbc8
  , 0x21e1cde6, 0xc33707d6, 0xf4d50d87, 0x455a14ed
  , 0xa9e3e905, 0xfcefa3f8, 0x676f02d9, 0x8d2a4c8a
  , 0xfffa3942, 0x8771f681, 0x6d9d6122, 0xfde5380c
  , 0xa4beea44, 0x4bdecfa9, 0xf6bb4b60, 0xbebfbc70
  , 0x289b7ec6, 0xeaa127fa, 0xd4ef3085, 0x04881d05
  , 0xd9d4d039, 0xe6db99e5, 0x1fa27cf8, 0xc4ac5665
  , 0xf4292244, 0x432aff97, 0xab9423a7, 0xfc93a039
  , 0x655b59c3, 0x8f0ccc92, 0xffeff47d, 0x85845dd1
  , 0x6fa87e4f, 0xfe2ce6e0, 0xa3014314, 0x4e0811a1
  , 0xf7537e82, 0xbd3af235, 0x2ad7d2bb, 0xeb86d391 ]

/-- MD5 per-round left-rotation amounts. -/
def md5S : List Nat :=
  [ 7, 12, 17, 22, 7, 12, 17, 22, 7, 12, 17, 22, 7, 12, 17, 22
  , 5, 9, 14, 20, 5, 9, 14, 20, 5, 9, 14, 20, 5, 9, 14, 20
  , 4, 11, 16, 23, 4, 11, 16, 23, 4, 11, 16, 23, 4, 11, 16, 23
  , 6, 10, 15, 21, 6, 10, 15, 21, 6, 10, 15, 21, 6, 10, 15, 21 ]

/-- One of the 64 MD5 operations: mix the message word selected for round
`i` into the rotating state. -/
def md5Step (M : Nat → Nat) (st : Nat × Nat × Nat × Nat) (i : Nat) :
    Nat × Nat × Nat × Nat :=
  match st with
  | (a, b, c, d) =>
    let f :=
      if i < 16 then md5F b c d
      else if i < 32 then md5G b c d
      else if i < 48 then md5H b c d
      else md5I b c d
    let g :=
      if i < 16 then i
      else if i < 32 then (5 * i + 1) % 16
      else if i < 48 then (3 * i + 5) % 16
      else (7 * i) % 16
    let tmp := (a + f + md5K.getD i 0 + M g) % 4294967296
    let a2 := (b + rotl32 tmp (md5S.getD i 0)) % 4294967296
    (d, a2, b, c)

/-- Process one 512-bit block (16 little-endian words accessed through `M`)
and add the result into the running state. -/
def md5Block (st : Nat × Nat × Nat × Nat) (M : Nat → Nat) :
    Nat × Nat × Nat × Nat :=
  match (List.range 64).foldl (md5Step M) st, st with
  | (a, b, c, d), (a0, b0, c0, d0) =>
    ((a0 + a) % 4294967296, (b0 + b) % 4294967296,
     (c0 + c) % 4294967296, (d0 + d) % 4294967296)

/-- MD5 padding: append `0x80`, zero-fill to 56 mod 64 bytes, then the
64-bit little-endian bit length. -/
def md5Pad (msg : List Nat) : List Nat :=
  let len := msg.length
  let zeros := (120 - (len + 1) % 64) % 64
  let bitLen := (8 * len) % 18446744073709551616
  msg ++ [128] ++ List.replicate zeros 0
    ++ [ bitLen % 256, bitLen / 256 % 256, bitLen / 65536 % 256
       , bitLen / 16777216 % 256, bitLen / 4294967296 % 256
       , bitLen / 1099511627776 % 256, bitLen / 281474976710656 % 256
       , bitLen / 72057594037927936 % 256 ]

/-- Assemble a padded byte list into 32-bit little-endian words. -/
def leWords : List Nat → List Nat
  | b0 :: b1 :: b2 :: b3 :: rest =>
    (b0 + 256 * b1 + 65536 * b2 + 16777216 * b3) :: leWords rest
  | _ => []

/-- Little-endian bytes of one 32-bit word. -/
def leBytes4 (x : Nat) : List Nat :=
  [x % 256, x / 256 % 256, x / 65536 % 256, x / 16777216 % 256]

/-- The 16-byte MD5 digest of a byte list. -/
def md5Bytes (msg : List Nat) : List Nat :=
  let ws := leWords (md5Pad msg)
  let init : Nat × Nat × Nat × Nat :=
    (0x67452301, 0xefcdab89, 0x98badcfe, 0x10325476)
  match (List.range (ws.length / 16)).foldl
      (fun st bi => md5Block st (fun j => ws.getD (16 * bi + j) 0)) init with
  | (a, b, c, d) => leBytes4 a ++ leBytes4 b ++ leBytes4 c ++ leBytes4 d

/-- Two lowercase hex digits of one byte. -/
def byteHex (b : Nat) : String :=
  String.mk [hexDigit (b / 16), hexDigit (b % 16)]

/-- `hexdigest()`: the digest bytes in lowercase hex. -/
def md5Hex (msg : List Nat) : String :=
  String.join ((md5Bytes msg).map byteHex)

/-- `VKParser.calculate_communities_hash`: MD5 hex digest of the key-sorted
JSON serialization of the community list. -/
def calculate_communities_hash (cs : List Community) : String :=
  md5Hex (utf8Bytes (communitiesJson cs))

/-! ## Report merger (`create_report`)

The workbook is modelled as a list of named sheets in workbook order; a cell
is a string (numeric cells through `toString`).  Styling, column widths and
alignment are display-only and not modelled.  `del wb[name]` removes the
sheet with that name (openpyxl sheet names are unique, so filtering out that
name removes exactly that sheet); `create_sheet` appends at the end; a fresh
`Workbook()` holds a single sheet which the source retitles to the current
date.  `wb.save` replaces the artifact at the canonical path; the
`except`-path (I/O failure, returning `None`) is not modelled. -/

/-- One worksheet: its name and its cell rows. -/
structure Sheet where
  name : String
  rows : List (List String)
  deriving DecidableEq, Repr

/-- The filesystem/persisted state read and written by `create_report`:
the artifact at the canonical path (if any) and
`self.last_communities_hash`. -/
structure ReportState where
  artifact : Option (List Sheet)
  lastHash : Option String
  deriving DecidableEq, Repr

/-- Header row of a date-named matches sheet. -/
def matchHeaders : List String :=
  ["Ссылка на сообщество", "Название", "Ссылка на пост", "Текст поста",
   "Найденные слова", "Дата", "Просмотры", "Лайки", "Репосты"]

/-- Header row of an unmatched sheet. -/
def emptyHeaders : List String :=
  ["Ссылка", "Название", "Причина"]

/-- One data row of the matches sheet (community columns then result
columns, the timestamp and counts rendered as text). -/
def matchRow (comm : Community) (res : MatchResult) : List String :=
  [comm.original_link, comm.name, res.link, res.text, res.found_words,
   toString res.date, toString res.views, toString res.likes,
   toString res.reposts]

/-- All rows written into the date-named sheet when `data` is nonempty:
the header, then one row per result of each community in order. -/
def matchesRows (data : List CommunityResult) : List (List String) :=
  matchHeaders ::
    (data.map (fun item => item.results.map (matchRow item.community))).flatten

/-- One data row of the unmatched sheet
(`comm.get('reason', 'Нет совпадений')`). -/
def emptyRow (c : EmptyOutcome) : List String :=
  [c.original_link, c.name, c.reason.getD "Нет совпадений"]

/-- All rows of the unmatched sheet. -/
def emptySheetRows (ecs : List EmptyOutcome) : List (List String) :=
  emptyHeaders :: ecs.map emptyRow

/-- The unmatched sheet title `f"Не найдено ({current_date})"`. -/
def emptySheetName (d : String) : String :=
  "Не найдено (" ++ d ++ ")"

/-- `del wb[name]`: drop the sheet carrying that (unique) name. -/
def removeSheet (n : String) (sheets : List Sheet) : List Sheet :=
  sheets.filter (fun s => s.name != n)

/-- The `same_communities` flag of `create_report`: an artifact exists at
the canonical path, `self.last_communities_hash` is set, and the hash
recomputed from the loaded communities equals it. -/
def sameCommunities (st : ReportState) (communities : List Community) : Bool :=
  match st.artifact, st.lastHash with
  | some _, some h => calculate_communities_hash communities == h
  | _, _ => false

/-- `VKParser.create_report`.  Empty inputs return `None` with no write.
Otherwise: when an artifact exists, `last_communities_hash` is set and the
recomputed hash of the loaded communities equals it (`sameCommunities`), the
existing workbook is extended (today's sheet replaced, appended at the end);
otherwise a fresh workbook is started.  The date sheet receives the match
rows only when `data` is nonempty; the unmatched sheet for today is
replaced, and written only when `empty_communities` is nonempty.  Returns
the new persisted state and the saved path (`Option`). -/
def create_report (st : ReportState) (communities : List Community)
    (data : List CommunityResult) (empty_communities : List EmptyOutcome)
    (current_date : String) : ReportState × Option String :=
  if data.isEmpty && empty_communities.isEmpty then (st, none)
  else
    let dateRows := if data.isEmpty then ([] : List (List String)) else matchesRows data
    let sheets1 :=
      match st.artifact, sameCommunities st communities with
      | some prior, true => removeSheet current_date prior ++ [⟨current_date, dateRows⟩]
      | _, _ => [⟨current_date, dateRows⟩]
    let sheets2 := removeSheet (emptySheetName current_date) sheets1
    let sheets3 :=
      if empty_communities.isEmpty then sheets2
      else sheets2 ++ [⟨emptySheetName current_date, emptySheetRows empty_communities⟩]
    ({ artifact := some sheets3, lastHash := st.lastHash },
      some "результаты_парсинга.xlsx")

/-! ## Witness and counterexample inputs -/

/-- The post of the spec example, body `"Big Sale Today"`. -/
def bigSalePost : Post :=
  { id := 1, owner_id := 2, text := "Big Sale Today", date := 0,
    views := 0, likes := 0, reposts := 0 }

/-- Response oracle whose first answer is rate limited, whose next two are
transient network failures, and whose fourth would succeed. -/
def cexResp : Nat → VKResponse := fun n =>
  if n = 0 then .apiError 6 else if n = 3 then .ok 0 else .networkError

/-- A Telegram-tagged community (as the resolver produces for a `t.me` link
ending in a non-handle character). -/
def tgOnlyComm : Community :=
  { original_link := "t.me/x/", domain := "tg_x", name := "X" }

/-- A VK-tagged community. -/
def vkCommW : Community :=
  { original_link := "vk.com/x", domain := "vk_x", name := "X" }

/-- First community of the hash counterexample. -/
def cexCommA : Community := { original_link := "", domain := "a", name := "" }

/-- Second community of the hash counterexample. -/
def cexCommB : Community := { original_link := "", domain := "b", name := "" }

/-- A post inside the window `[10, 20)`. -/
def pInW : Post :=
  { id := 1, owner_id := 2, text := "in", date := 15,
    views := 0, likes := 0, reposts := 0 }

/-- A post outside the window `[10, 20)`, listed after the in-window one. -/
def pOutW : Post :=
  { id := 3, owner_id := 2, text := "out", date := 25,
    views := 0, likes := 0, reposts := 0 }

/-- Prior report state of the merge witness: one historical sheet, hash of
the (empty) community list recorded. -/
def shW : List Sheet := [⟨"01.01.2024", []⟩]

/-- Persisted state for the merge witness. -/
def stW : ReportState :=
  { artifact := some shW, lastHash := some (calculate_communities_hash []) }

/-- Empty outcome used by the merge witness. -/
def ecsW : List EmptyOutcome := [⟨"l", "n", none⟩]

/-! ## Theorems -/

set_option maxRecDepth 8000

/-- MD5 reference vector: the digest of the empty message. -/
theorem md5_empty_vector : md5Hex [] = "d41d8cd98f00b204e9800998ecf8427e" := by
  decide

/-- MD5 reference vector: the digest of `"abc"`. -/
theorem md5_abc_vector :
    md5Hex (utf8Bytes "abc") = "900150983cd24fb0d6963f7d28e17f72" := by
  decide

/-- Claim C10: when both the match data and the empty-communities list are
empty, `create_report` returns `None` and leaves the persisted state — in
particular any existing artifact at the canonical path — untouched. -/
theorem create_report_empty_inputs_no_write (st : ReportState)
    (communities : List Community) (d : String) :
    create_report st communities [] [] d = (st, none) := rfl

/-- Claim C8: `get_selected_dates` always returns a pair `(s, e)` with
`s < e`; equal inputs map to `(start, start + 1 day)`, reversed inputs to
`(end, start + 1 day)`, ordered inputs are unchanged; in particular
`(2024-05-01, 2024-05-01) -> (2024-05-01, 2024-05-02)` and
`(2024-05-05, 2024-05-01) -> (2024-05-01, 2024-05-06)`. -/
theorem get_selected_dates_normalizes (s e : Int) :
    (get_selected_dates s e).1 < (get_selected_dates s e).2
    ∧ (s = e → get_selected_dates s e = (s, s + 1))
    ∧ (s > e → get_selected_dates s e = (e, s + 1))
    ∧ (s < e → get_selected_dates s e = (s, e))
    ∧ get_selected_dates (days_from_civil 2024 5 1) (days_from_civil 2024 5 1)
        = (days_from_civil 2024 5 1, days_from_civil 2024 5 2)
    ∧ get_selected_dates (days_from_civil 2024 5 5) (days_from_civil 2024 5 1)
        = (days_from_civil 2024 5 1, days_from_civil 2024 5 6) := by
  refine ⟨?_, ?_, ?_, ?_, by decide, by decide⟩
  · unfold get_selected_dates
    split_ifs with h1 h2 <;> simp <;> omega
  · intro h; simp [get_selected_dates, h]
  · intro h
    have hne : ¬ s = e := by omega
    simp [get_selected_dates, hne, h]
  · intro h
    have hne : ¬ s = e := by omega
    have hng : ¬ s > e := by omega
    simp [get_selected_dates, hne, hng]

/-- Witness for C8: all three branches at concrete day numbers. -/
theorem get_selected_dates_normalizes_witness :
    get_selected_dates 100 100 = (100, 101)
    ∧ get_selected_dates 105 101 = (101, 106)
    ∧ get_selected_dates 100 105 = (100, 105) :=
  ⟨(get_selected_dates_normalizes 100 100).2.1 rfl,
   (get_selected_dates_normalizes 105 101).2.2.1 (by decide),
   (get_selected_dates_normalizes 100 105).2.2.2.1 (by decide)⟩

/-- Helper: when every response consulted is transient, the attempt loop
spends all its fuel, issuing exactly `fuel` further requests. -/
theorem vkAttemptLoop_exhaust (resp : Nat → VKResponse) :
    ∀ fuel made, (∀ i, i < fuel → isTransientResp (resp (made + i)) = true) →
      vkAttemptLoop resp fuel made = .exhausted (made + fuel) := by
  intro fuel
  induction fuel with
  | zero => intro made _; simp [vkAttemptLoop]
  | succ n ih =>
    intro made h
    have h0 : isTransientResp (resp made) = true := by simpa using h 0 (Nat.succ_pos n)
    have hrest : ∀ i, i < n → isTransientResp (resp (made + 1 + i)) = true := by
      intro i hi
      have hx := h (i + 1) (by omega)
      have e : made + (i + 1) = made + 1 + i := by omega
      rwa [e] at hx
    have ih2 := ih (made + 1) hrest
    have egoal : made + 1 + n = made + (n + 1) := by omega
    cases hr : resp made with
    | ok d =>
      rw [hr] at h0
      simp [isTransientResp] at h0
    | networkError =>
      rw [show vkAttemptLoop resp (n + 1) made = vkAttemptLoop resp n (made + 1) from by
        simp only [vkAttemptLoop]; rw [hr]]
      rw [ih2, egoal]
    | apiError code =>
      rw [hr] at h0
      have hcont : fatalCodes.contains code = false := by
        simpa [isTransientResp] using h0
      have hnm : ¬ code ∈ fatalCodes := by simpa using hcont
      by_cases hc : code = 6
      · rw [show vkAttemptLoop resp (n + 1) made = vkAttemptLoop resp n (made + 1) from by
          simp only [vkAttemptLoop]; rw [hr]; simp [hc]]
        rw [ih2, egoal]
      · rw [show vkAttemptLoop resp (n + 1) made = vkAttemptLoop resp n (made + 1) from by
          simp only [vkAttemptLoop]; rw [hr]; simp [hc, hcont, hnm]]
        rw [ih2, egoal]

/-- Helper: a fatal response at position `k` (after `k` transient ones)
makes the attempt loop raise at once, with exactly `k + 1` further requests
issued. -/
theorem vkAttemptLoop_fatal (resp : Nat → VKResponse) :
    ∀ k fuel made, k < fuel →
      (∀ i, i < k → isTransientResp (resp (made + i)) = true) →
      isFatalResp (resp (made + k)) = true →
      vkAttemptLoop resp fuel made
        = .fatalError (respErrorCode (resp (made + k))) (made + k + 1) := by
  intro k
  induction k with
  | zero =>
    intro fuel made hk _ hf
    cases fuel with
    | zero => omega
    | succ n =>
      rw [Nat.add_zero] at hf
      cases hr : resp made with
      | ok d => rw [hr] at hf; simp [isFatalResp] at hf
      | networkError => rw [hr] at hf; simp [isFatalResp] at hf
      | apiError code =>
        rw [hr] at hf
        have hcont : fatalCodes.contains code = true := by
          simpa [isFatalResp] using hf
        have hm : code ∈ fatalCodes := by simpa using hcont
        have hc6 : ¬ code = 6 := by
          intro h6
          rw [h6] at hcont
          exact absurd hcont (by decide)
        simp only [Nat.add_zero]
        simp only [vkAttemptLoop]
        rw [hr]
        simp [hc6, hcont, hm, respErrorCode]
  | succ k ih =>
    intro fuel made hk ht hf
    cases fuel with
    | zero => omega
    | succ n =>
      have h0 : isTransientResp (resp made) = true := by simpa using ht 0 (by omega)
      have htrest : ∀ i, i < k → isTransientResp (resp (made + 1 + i)) = true := by
        intro i hi
        have hx := ht (i + 1) (by omega)
        have e : made + (i + 1) = made + 1 + i := by omega
        rwa [e] at hx
      have hfrest : isFatalResp (resp (made + 1 + k)) = true := by
        have e : made + (k + 1) = made + 1 + k := by omega
        rwa [e] at hf
      have ih2 := ih n (made + 1) (by omega) htrest hfrest
      have e2 : made + 1 + k = made + (k + 1) := by omega
      rw [e2] at ih2
      have e3 : made + (k + 1) + 1 = made + 1 + (k + 1) := by omega
      cases hr : resp made with
      | ok d =>
        rw [hr] at h0
        simp [isTransientResp] at h0
      | networkError =>
        rw [show vkAttemptLoop resp (n + 1) made = vkAttemptLoop resp n (made + 1) from by
          simp only [vkAttemptLoop]; rw [hr]]
        rw [ih2]
      | apiError code =>
        rw [hr] at h0
        have hcont : fatalCodes.contains code = false := by
          simpa [isTransientResp] using h0
        have hnm : ¬ code ∈ fatalCodes := by simpa using hcont
        by_cases hc : code = 6
        · rw [show vkAttemptLoop resp (n + 1) made = vkAttemptLoop resp n (made + 1) from by
            simp only [vkAttemptLoop]; rw [hr]; simp [hc]]
          rw [ih2]
        · rw [show vkAttemptLoop resp (n + 1) made = vkAttemptLoop resp n (made + 1) from by
            simp only [vkAttemptLoop]; rw [hr]; simp [hc, hcont, hnm]]
          rw [ih2]

/-- Claim C3: when every attempt yields a transient failure (network error
or non-fatal remote error code), the gateway makes exactly `MAX_ATTEMPTS`
attempts and then raises the typed exhaustion failure carrying that attempt
count; when the responses up to some position `k` within the budget are
transient and the response at `k` carries a fatal error code, the gateway
raises the typed fatal failure having issued exactly `k + 1` requests — no
further attempts. -/
theorem make_vk_request_attempts_spec (resp : Nat → VKResponse) (k : Nat) :
    ((∀ i, i < MAX_ATTEMPTS → isTransientResp (resp i) = true) →
      make_vk_request resp = .exhausted MAX_ATTEMPTS)
    ∧ (k < MAX_ATTEMPTS →
      (∀ i, i < k → isTransientResp (resp i) = true) →
      isFatalResp (resp k) = true →
      make_vk_request resp = .fatalError (respErrorCode (resp k)) (k + 1)) := by
  constructor
  · intro h
    have hx := vkAttemptLoop_exhaust resp MAX_ATTEMPTS 0 (by simpa using h)
    simpa [make_vk_request] using hx
  · intro hk ht hf
    have hx := vkAttemptLoop_fatal resp k MAX_ATTEMPTS 0 hk (by simpa using ht)
      (by simpa using hf)
    simpa [make_vk_request] using hx

/-- Witness for C3: all-transient responses exhaust after 3 attempts; an
immediately fatal code 5 raises after exactly one attempt. -/
theorem make_vk_request_attempts_spec_witness :
    make_vk_request (fun _ => .networkError) = .exhausted MAX_ATTEMPTS
    ∧ make_vk_request (fun _ => .apiError 5) = .fatalError 5 1 := by
  constructor
  · exact (make_vk_request_attempts_spec (fun _ => .networkError) 0).1 (fun _ _ => rfl)
  · have h := (make_vk_request_attempts_spec (fun _ => .apiError 5) 0).2
      (by decide) (fun i hi => absurd hi (Nat.not_lt_zero i)) (by decide)
    simpa using h

/-- Helper: a rate-limited response is one of the transiently retried
responses. -/
theorem isTransientResp_of_rateLimited (r : VKResponse)
    (h : isRateLimitedResp r = true) : isTransientResp r = true := by
  cases r with
  | ok d => simp [isRateLimitedResp] at h
  | networkError => rfl
  | apiError code =>
    have h6 : code = 6 := by simpa [isRateLimitedResp] using h
    rw [h6]
    decide

/-- Counterexample to claim C4 as stated: the first response is rate
limited, the next two are transient, and the fourth request would succeed —
but the gateway raises exhaustion after `MAX_ATTEMPTS = 3` requests: the
rate-limited retry consumed one unit of the same attempt budget, so the
available success at position 3 is never attempted. -/
theorem make_vk_request_rate_limit_counts_attempts :
    isRateLimitedResp (cexResp 0) = true
    ∧ isTransientResp (cexResp 1) = true
    ∧ isTransientResp (cexResp 2) = true
    ∧ cexResp MAX_ATTEMPTS = .ok 0
    ∧ make_vk_request cexResp = .exhausted MAX_ATTEMPTS := by
  refine ⟨rfl, rfl, rfl, rfl, ?_⟩
  decide

/-- Claim C4 (amended): a remote rate-limited response (code 6) triggers an
extra sleep and a retry rather than a failure, but the retry consumes one
unit of the same `MAX_ATTEMPTS` budget — in particular, responses that are
all rate limited exhaust the gateway after exactly `MAX_ATTEMPTS` attempts. -/
theorem make_vk_request_rate_limited_budget (resp : Nat → VKResponse) :
    (resp 0 = .apiError 6 →
      make_vk_request resp = vkAttemptLoop resp (MAX_ATTEMPTS - 1) 1)
    ∧ ((∀ i, i < MAX_ATTEMPTS → isRateLimitedResp (resp i) = true) →
      make_vk_request resp = .exhausted MAX_ATTEMPTS) := by
  constructor
  · intro h
    show vkAttemptLoop resp MAX_ATTEMPTS 0 = vkAttemptLoop resp (MAX_ATTEMPTS - 1) 1
    simp only [MAX_ATTEMPTS, vkAttemptLoop]
    rw [h]
    simp
  · intro h
    have hx := vkAttemptLoop_exhaust resp MAX_ATTEMPTS 0 (by
      intro i hi
      exact isTransientResp_of_rateLimited _ (by simpa using h i hi))
    simpa [make_vk_request] using hx

/-- Witness for C4 (amended): all-rate-limited responses are retried into
exhaustion after exactly `MAX_ATTEMPTS` attempts. -/
theorem make_vk_request_rate_limited_budget_witness :
    make_vk_request (fun _ => .apiError 6)
      = vkAttemptLoop (fun _ => .apiError 6) (MAX_ATTEMPTS - 1) 1
    ∧ make_vk_request (fun _ => .apiError 6) = .exhausted MAX_ATTEMPTS :=
  ⟨(make_vk_request_rate_limited_budget (fun _ => .apiError 6)).1 rfl,
   (make_vk_request_rate_limited_budget (fun _ => .apiError 6)).2 (fun _ _ => rfl)⟩

/-- Helper: the matcher loop is the order-preserving `filterMap` keeping
exactly the posts containing some keyword, with the found keywords in
keyword order. -/
theorem searchLoop_eq_filterMap (sts : List String) (posts : List Post) :
    searchLoop sts posts = posts.filterMap (fun p =>
      if (sts.filter (fun w => strContains (lowerStr p.text) w)).isEmpty then none
      else some (mkMatchResult p
        (sts.filter (fun w => strContains (lowerStr p.text) w)))) := by
  induction posts with
  | nil => rfl
  | cons p rest ih =>
    by_cases h : (sts.filter (fun w => strContains (lowerStr p.text) w)).isEmpty
    · simp only [searchLoop, List.filterMap_cons]
      simp [h, ih]
    · simp only [searchLoop, List.filterMap_cons]
      simp [h, ih]

/-- Claim C7: with the stop flag clear, the keyword matcher returns — in
input order — one `MatchResult` per post whose (lowercased) body contains at
least one (lowercased) keyword as a substring, its found-keywords listing
every matching keyword in the caller-supplied keyword order; posts with no
match are simply excluded.  In particular `"Big Sale Today"` matches the
keyword `"sale"`. -/
theorem search_text_in_posts_spec (posts : List Post) (kws : List String) :
    search_text_in_posts false posts kws
      = posts.filterMap (fun p =>
          if ((kws.map lowerStr).filter
              (fun w => strContains (lowerStr p.text) w)).isEmpty then none
          else some (mkMatchResult p
            ((kws.map lowerStr).filter
              (fun w => strContains (lowerStr p.text) w))))
    ∧ (search_text_in_posts false [bigSalePost] ["sale"]).map
        (fun r => r.found_words) = ["sale"] :=
  ⟨searchLoop_eq_filterMap (kws.map lowerStr) posts, by decide⟩

/-- Helper: the collection loop of `run_parsing` yields one outcome per
submitted community, and every empty outcome carries the reason
`'Нет совпадений'`. -/
theorem runLoop_count (fetch : String → List Post) (sts : List String) :
    ∀ l : List Community,
      (runLoop fetch false sts l).1.length + (runLoop fetch false sts l).2.length
        = l.length
      ∧ ∀ e ∈ (runLoop fetch false sts l).2, e.reason = some "Нет совпадений" := by
  intro l
  induction l with
  | nil => exact ⟨rfl, by intro e he; simp [runLoop] at he⟩
  | cons c rest ih =>
    cases hp : process_community fetch false sts c with
    | some r =>
      refine ⟨?_, ?_⟩
      · have h1 := ih.1
        simp only [runLoop, hp]
        simp only [List.length_cons]
        omega
      · intro e he
        simp only [runLoop, hp] at he
        exact ih.2 e he
    | none =>
      refine ⟨?_, ?_⟩
      · have h1 := ih.1
        simp only [runLoop, hp]
        simp only [List.length_cons]
        omega
      · intro e he
        simp only [runLoop, hp, List.mem_cons] at he
        rcases he with he | he
        · rw [he]
        · exact ih.2 e he

/-- Counterexample to claim C1 as stated: a run over one Telegram-tagged
target (whose backend would even return a matching post) produces zero
outcomes — `run_parsing` filters the loaded communities to `vk_` domains
before submitting any work, so the match count plus the empty count is 0,
not the total number of targets. -/
theorem run_parsing_drops_nonvk_target :
    (run_parsing (fun _ => [bigSalePost]) false [tgOnlyComm] ["sale"]).1.length
      + (run_parsing (fun _ => [bigSalePost]) false [tgOnlyComm] ["sale"]).2.length
      ≠ ([tgOnlyComm] : List Community).length := by decide

/-- Claim C1 (amended): a clean run produces exactly one outcome per
VK-tagged target — the number of communities in the match results plus the
number of empty-outcome entries equals the number of targets whose domain
starts with `vk_`; targets of all other platforms are dropped without any
outcome, and every empty outcome is recorded with reason `'Нет совпадений'`
(no `unsupported_platform` reason exists in the code). -/
theorem run_parsing_one_outcome_per_vk_target (fetch : String → List Post)
    (sts : List String) (communities : List Community) :
    (run_parsing fetch false communities sts).1.length
      + (run_parsing fetch false communities sts).2.length
      = (communities.filter (fun c => strStartsWith c.domain "vk_")).length
    ∧ ∀ e ∈ (run_parsing fetch false communities sts).2,
        e.reason = some "Нет совпадений" := by
  have h := runLoop_count fetch sts
    (communities.filter (fun c => strStartsWith c.domain "vk_"))
  exact ⟨h.1, h.2⟩

/-- Witness for C1 (amended): one VK target and one TG target give exactly
one outcome (the VK one, empty with reason `'Нет совпадений'`). -/
theorem run_parsing_one_outcome_per_vk_target_witness :
    (run_parsing (fun _ => []) false [vkCommW, tgOnlyComm] ["a"]).1.length
      + (run_parsing (fun _ => []) false [vkCommW, tgOnlyComm] ["a"]).2.length = 1
    ∧ (⟨vkCommW.original_link, vkCommW.name, some "Нет совпадений"⟩ : EmptyOutcome).reason
        = some "Нет совпадений" := by
  have h := run_parsing_one_outcome_per_vk_target (fun _ => []) ["a"]
    [vkCommW, tgOnlyComm]
  exact ⟨by rw [h.1]; decide,
    h.2 ⟨vkCommW.original_link, vkCommW.name, some "Нет совпадений"⟩ (by decide)⟩

/-- Counterexample to claim C2 as stated: the link `"t.me/durov"` carries an
explicit Telegram host marker, yet the resolver tags it `vk_` — the VK
pattern list ends in the bare-handle pattern `([a-z0-9_\-\.]+)$`, which is
tried before any OK or TG pattern and matches the trailing handle. -/
theorem extract_domain_tme_tagged_vk :
    extract_domain_from_link "t.me/durov" = some "vk_durov"
    ∧ strContains "t.me/durov" "t.me/" = true
    ∧ strStartsWith "vk_durov" "tg_" = false := by decide

/-- Claim C2 (amended): tagging follows the pattern-tier priority VK → OK →
TG, where the VK tier ends in the bare-handle catch-all: a captured VK-tier
match (including a bare trailing handle) yields a `vk_` tag; `ok_` and `tg_`
tags are produced only when every pattern of the earlier tiers fails — so a
link with an explicit `t.me` host marker is tagged `tg_` only when the VK
patterns all fail, e.g. `"t.me/durov/"` (trailing slash), while
`"t.me/durov"` is tagged `vk_`. -/
theorem extract_domain_priority_order (link : String) :
    (link ≠ "" → ∀ d, firstPat patterns_vk (normalizeLink link) = some d →
      extract_domain_from_link link = some ("vk_" ++ String.mk d))
    ∧ (link ≠ "" → firstPat patterns_vk (normalizeLink link) = none →
      ∀ d, firstPat patterns_ok (normalizeLink link) = some d →
      extract_domain_from_link link = some ("ok_" ++ String.mk d))
    ∧ (link ≠ "" → firstPat patterns_vk (normalizeLink link) = none →
      firstPat patterns_ok (normalizeLink link) = none →
      ∀ d, firstPat patterns_tg (normalizeLink link) = some d →
      extract_domain_from_link link = some ("tg_" ++ String.mk d))
    ∧ extract_domain_from_link "t.me/durov/" = some "tg_durov" := by
  refine ⟨?_, ?_, ?_, by decide⟩
  · intro h d hd
    simp [extract_domain_from_link, h, hd]
  · intro h hv d hd
    simp [extract_domain_from_link, h, hv, hd]
  · intro h hv ho d hd
    simp [extract_domain_from_link, h, hv, ho, hd]

/-- Witness for C2 (amended): a `vk.com` link through the first tier and a
trailing-slash `t.me` link through the TG tier. -/
theorem extract_domain_priority_order_witness :
    extract_domain_from_link "vk.com/durov" = some ("vk_" ++ String.mk ("durov".toList))
    ∧ extract_domain_from_link "t.me/durov/" = some ("tg_" ++ String.mk ("durov".toList)) := by
  constructor
  · exact (extract_domain_priority_order "vk.com/durov").1 (by decide)
      ("durov".toList) (by decide)
  · exact (extract_domain_priority_order "t.me/durov/").2.2.1 (by decide)
      (by decide) (by decide) ("durov".toList) (by decide)

/-- Helper: the pagination loop returns its accumulator as soon as the
offset reaches the `MAX_POSTS` cap. -/
theorem ggpLoop_cap (pages : Nat → PageResult) (stopFlag : Nat → Bool)
    (startTs endTs : Int) (fuel k offset : Nat) (acc : List Post)
    (h : ¬ offset < MAX_POSTS) :
    ggpLoop pages stopFlag startTs endTs fuel k offset acc = acc := by
  cases fuel with
  | zero => rfl
  | succ n => simp [ggpLoop, h]

/-- Helper: one unfolding step of the pagination loop. -/
theorem ggpLoop_succ (pages : Nat → PageResult) (stopFlag : Nat → Bool)
    (startTs endTs : Int) (fuel k offset : Nat) (acc : List Post) :
    ggpLoop pages stopFlag startTs endTs (fuel + 1) k offset acc =
      (if offset < MAX_POSTS && !(stopFlag k) then
        match pages k with
        | .fetchError => acc
        | .noResponse => acc
        | .ok items =>
          let acc2 := acc ++ items.filter (fun p => decide (startTs ≤ p.date ∧ p.date < endTs))
          if items.length < 100 then acc2
          else ggpLoop pages stopFlag startTs endTs fuel (k + 1) (offset + items.length) acc2
      else acc) := rfl

/-- Claim C9: for a VK-tagged domain, every post returned by the wall fetch
lies in the window `start_ts <= date < end_ts` (filtering is client-side, so
in-window posts are kept even when out-of-window items precede them in the
page); a set cancellation flag stops the run empty; and a successful first
page is fully processed, pagination then stopping either because the page
was shorter than the page size or because the 100-post fetch cap is
reached. -/
theorem get_group_posts_spec (pages : Nat → PageResult) (stopFlag : Nat → Bool)
    (domain : String) (startTs endTs : Int)
    (hdom : strStartsWith domain "vk_" = true) :
    (∀ p ∈ get_group_posts pages stopFlag domain startTs endTs,
        startTs ≤ p.date ∧ p.date < endTs)
    ∧ (stopFlag 0 = true →
        get_group_posts pages stopFlag domain startTs endTs = [])
    ∧ (∀ items, stopFlag 0 = false → pages 0 = .ok items →
        get_group_posts pages stopFlag domain startTs endTs
          = items.filter (fun p => decide (startTs ≤ p.date ∧ p.date < endTs))) := by
  have hunfold : get_group_posts pages stopFlag domain startTs endTs
      = ggpLoop pages stopFlag startTs endTs (MAX_POSTS + 1) 0 0 [] := by
    unfold get_group_posts
    rw [hdom]
    rfl
  have hc : ((decide (0 < MAX_POSTS)) && !false) = true := by decide
  have h2 : stopFlag 0 = true →
      get_group_posts pages stopFlag domain startTs endTs = [] := by
    intro hsf
    rw [hunfold, ggpLoop_succ, hsf]
    simp
  have h3 : ∀ items, stopFlag 0 = false → pages 0 = .ok items →
      get_group_posts pages stopFlag domain startTs endTs
        = items.filter (fun p => decide (startTs ≤ p.date ∧ p.date < endTs)) := by
    intro items hsf hp
    rw [hunfold, ggpLoop_succ, hsf, hp]
    rw [if_pos hc]
    show (if items.length < 100
        then [] ++ items.filter (fun p => decide (startTs ≤ p.date ∧ p.date < endTs))
        else ggpLoop pages stopFlag startTs endTs MAX_POSTS (0 + 1)
          (0 + items.length)
          ([] ++ items.filter (fun p => decide (startTs ≤ p.date ∧ p.date < endTs))))
      = items.filter (fun p => decide (startTs ≤ p.date ∧ p.date < endTs))
    by_cases hl : items.length < 100
    · rw [if_pos hl]
      simp
    · rw [if_neg hl]
      rw [ggpLoop_cap pages stopFlag startTs endTs MAX_POSTS (0 + 1)
        (0 + items.length) _ (by simp only [MAX_POSTS]; omega)]
      simp
  refine ⟨?_, h2, h3⟩
  intro p hp
  cases hsf : stopFlag 0 with
  | true =>
    rw [h2 hsf] at hp
    simp at hp
  | false =>
    cases hpg : pages 0 with
    | ok items =>
      rw [h3 items hsf hpg] at hp
      have hm := List.mem_filter.mp hp
      exact of_decide_eq_true hm.2
    | noResponse =>
      have hres : get_group_posts pages stopFlag domain startTs endTs = [] := by
        rw [hunfold, ggpLoop_succ, hsf, hpg, if_pos hc]
      rw [hres] at hp
      simp at hp
    | fetchError =>
      have hres : get_group_posts pages stopFlag domain startTs endTs = [] := by
        rw [hunfold, ggpLoop_succ, hsf, hpg, if_pos hc]
      rw [hres] at hp
      simp at hp

/-- Witness for C9: a window `[10, 20)`, one in-window post listed before an
out-of-window one — only the in-window post is returned, and it satisfies
the window bounds. -/
theorem get_group_posts_spec_witness :
    get_group_posts (fun _ => .ok [pInW, pOutW]) (fun _ => false) "vk_test" 10 20
      = [pInW]
    ∧ (10 ≤ pInW.date ∧ pInW.date < 20) := by
  have h := (get_group_posts_spec (fun _ => .ok [pInW, pOutW]) (fun _ => false)
    "vk_test" 10 20 (by decide)).2.2 [pInW, pOutW] rfl rfl
  refine ⟨by rw [h]; decide, ?_⟩
  exact (get_group_posts_spec (fun _ => .ok [pInW, pOutW]) (fun _ => false)
    "vk_test" 10 20 (by decide)).1 pInW (by rw [h]; decide)

/-- Counterexample to claim C5 as stated: two community lists holding the
same set of `(original_link, domain, name)` rows in swapped order hash
differently — `json.dumps(.., sort_keys=True)` sorts only the keys inside
each dict, not the list, so the serialized strings and their MD5 digests
differ. -/
theorem communities_hash_order_sensitive :
    List.Perm [cexCommA, cexCommB] [cexCommB, cexCommA]
    ∧ calculate_communities_hash [cexCommA, cexCommB]
        ≠ calculate_communities_hash [cexCommB, cexCommA] := by
  constructor
  · decide
  · decide

/-- Claim C5 (amended): the content-identity hash is a deterministic
function of the ordered sequence of `(original_link, domain, name)` rows:
two lists carrying equal rows in the same order hash equally (the hash is
order-sensitive across reorderings, per the counterexample). -/
theorem communities_hash_deterministic (l1 l2 : List Community)
    (h : l1.map (fun c => (c.original_link, c.domain, c.name))
        = l2.map (fun c => (c.original_link, c.domain, c.name))) :
    calculate_communities_hash l1 = calculate_communities_hash l2 := by
  have hinj : Function.Injective
      (fun c : Community => (c.original_link, c.domain, c.name)) := by
    intro a b hab
    cases a
    cases b
    simpa using hab
  have heq : l1 = l2 := List.map_injective_iff.mpr hinj h
  rw [heq]

/-- Witness for C5 (amended): equal row sequences give equal hashes. -/
theorem communities_hash_deterministic_witness :
    calculate_communities_hash [cexCommA, cexCommB]
      = calculate_communities_hash [cexCommA, cexCommB] :=
  communities_hash_deterministic [cexCommA, cexCommB] [cexCommA, cexCommB] rfl

/-- Helper: sheet removal distributes over workbook concatenation. -/
theorem removeSheet_append (n : String) (xs ys : List Sheet) :
    removeSheet n (xs ++ ys) = removeSheet n xs ++ removeSheet n ys := by
  simp [removeSheet]

/-- Helper: removing the same sheet name twice equals removing it once. -/
theorem removeSheet_idem (n : String) (xs : List Sheet) :
    removeSheet n (removeSheet n xs) = removeSheet n xs := by
  simp [removeSheet, List.filter_filter]

/-- Helper: removals of two sheet names commute. -/
theorem removeSheet_comm (a b : String) (xs : List Sheet) :
    removeSheet a (removeSheet b xs) = removeSheet b (removeSheet a xs) := by
  simp [removeSheet, List.filter_filter, Bool.and_comm]

/-- Helper: after removing a sheet name, no sheet of that name remains. -/
theorem filter_name_removeSheet (n : String) (xs : List Sheet) :
    (removeSheet n xs).filter (fun s => s.name == n) = [] := by
  simp [removeSheet, List.filter_filter]

/-- Helper: a sheet of a different name survives a removal. -/
theorem mem_removeSheet (n : String) (s : Sheet) (xs : List Sheet)
    (hs : s ∈ xs) (hn : s.name ≠ n) : s ∈ removeSheet n xs :=
  List.mem_filter.mpr ⟨hs, by simpa [bne_iff_ne] using hn⟩

/-- Helper: the unmatched sheet title is never the bare date title. -/
theorem emptySheetName_ne (d : String) : emptySheetName d ≠ d := by
  intro h
  have hlen := congrArg String.length h
  have h1 : ("Не найдено (" : String).length = 12 := rfl
  have h2 : (")" : String).length = 1 := rfl
  rw [emptySheetName, String.length_append, String.length_append, h1, h2] at hlen
  omega

/-- The sheet list produced by the extend path of `create_report`: prior
sheets minus the two current-date sheets, then the rebuilt date sheet and
unmatched sheet appended. -/
def extendSheets (sh0 : List Sheet) (data : List CommunityResult)
    (ecs : List EmptyOutcome) (d : String) : List Sheet :=
  removeSheet (emptySheetName d) (removeSheet d sh0)
    ++ [⟨d, if data.isEmpty then [] else matchesRows data⟩,
        ⟨emptySheetName d, emptySheetRows ecs⟩]

/-- Helper: closed form of `create_report` on the extend path (artifact
present, recorded hash equal to the recomputed one, nonempty empties). -/
theorem create_report_extend (st : ReportState) (comms : List Community)
    (data : List CommunityResult) (ecs : List EmptyOutcome) (d : String)
    (sh0 : List Sheet)
    (hart : st.artifact = some sh0)
    (hhash : st.lastHash = some (calculate_communities_hash comms))
    (hecs : ecs ≠ []) :
    create_report st comms data ecs d
      = ({ artifact := some (extendSheets sh0 data ecs d),
           lastHash := st.lastHash }, some "результаты_парсинга.xlsx") := by
  have hempty : ecs.isEmpty = false := by
    cases ecs with
    | nil => exact absurd rfl hecs
    | cons a l => rfl
  have hdne : d ≠ emptySheetName d := (emptySheetName_ne d).symm
  obtain ⟨art, lh⟩ := st
  have hart2 : art = some sh0 := hart
  have hhash2 : lh = some (calculate_communities_hash comms) := hhash
  subst hart2
  subst hhash2
  have hcond : ¬ ((data.isEmpty && ecs.isEmpty) = true) := by
    rw [hempty, Bool.and_false]
    exact Bool.false_ne_true
  have hSame : sameCommunities
      ⟨some sh0, some (calculate_communities_hash comms)⟩ comms = true := by
    show (calculate_communities_hash comms == calculate_communities_hash comms) = true
    exact beq_self_eq_true _
  unfold create_report
  rw [if_neg hcond, hSame]
  show ((ReportState.mk
      (some
        (if ecs.isEmpty then
          removeSheet (emptySheetName d)
            (removeSheet d sh0
              ++ [⟨d, if data.isEmpty then [] else matchesRows data⟩])
         else
          removeSheet (emptySheetName d)
            (removeSheet d sh0
              ++ [⟨d, if data.isEmpty then [] else matchesRows data⟩])
            ++ [⟨emptySheetName d, emptySheetRows ecs⟩]))
      (some (calculate_communities_hash comms))),
      (some "результаты_парсинга.xlsx" : Option String)) = _
  rw [hempty]
  rw [if_neg Bool.false_ne_true]
  have hsingle : removeSheet (emptySheetName d)
      [(⟨d, if data.isEmpty then [] else matchesRows data⟩ : Sheet)]
      = [⟨d, if data.isEmpty then [] else matchesRows data⟩] := by
    simp [removeSheet, List.filter_cons, bne_iff_ne, hdne]
  rw [removeSheet_append, hsingle]
  unfold extendSheets
  rw [List.append_assoc]
  rfl

/-- Helper: the extend-path sheet rewrite is idempotent. -/
theorem extendSheets_idem (sh0 : List Sheet) (data : List CommunityResult)
    (ecs : List EmptyOutcome) (d : String) :
    extendSheets (extendSheets sh0 data ecs d) data ecs d
      = extendSheets sh0 data ecs d := by
  have hdne : d ≠ emptySheetName d := (emptySheetName_ne d).symm
  have hend : emptySheetName d ≠ d := emptySheetName_ne d
  unfold extendSheets
  rw [removeSheet_append, removeSheet_append]
  have hR : removeSheet d
      [(⟨d, if data.isEmpty then [] else matchesRows data⟩ : Sheet),
       ⟨emptySheetName d, emptySheetRows ecs⟩]
      = [⟨emptySheetName d, emptySheetRows ecs⟩] := by
    simp [removeSheet, List.filter_cons, bne_iff_ne, hend]
  have hE : removeSheet (emptySheetName d)
      [(⟨emptySheetName d, emptySheetRows ecs⟩ : Sheet)] = [] := by
    simp [removeSheet, List.filter_cons]
  have hdx : removeSheet d (removeSheet (emptySheetName d) (removeSheet d sh0))
      = removeSheet (emptySheetName d) (removeSheet d sh0) := by
    rw [removeSheet_comm d (emptySheetName d), removeSheet_idem]
  rw [hR, hdx, hE, List.append_nil, removeSheet_idem]

/-- Helper: the extended workbook holds exactly one date sheet and one
unmatched sheet for the current date, and keeps every prior sheet of any
other name. -/
theorem extendSheets_count (sh0 : List Sheet) (data : List CommunityResult)
    (ecs : List EmptyOutcome) (d : String) :
    ((extendSheets sh0 data ecs d).filter (fun s => s.name == d)).length = 1
    ∧ ((extendSheets sh0 data ecs d).filter
        (fun s => s.name == emptySheetName d)).length = 1
    ∧ ∀ s ∈ sh0, s.name ≠ d → s.name ≠ emptySheetName d →
        s ∈ extendSheets sh0 data ecs d := by
  have hdne : d ≠ emptySheetName d := (emptySheetName_ne d).symm
  have hend : emptySheetName d ≠ d := emptySheetName_ne d
  refine ⟨?_, ?_, ?_⟩
  · unfold extendSheets
    rw [List.filter_append]
    have hbase : ((removeSheet (emptySheetName d) (removeSheet d sh0)).filter
        (fun s => s.name == d)) = [] := by
      have hsub := filter_name_removeSheet d sh0
      rw [removeSheet_comm]
      exact filter_name_removeSheet d (removeSheet (emptySheetName d) sh0)
    rw [hbase]
    simp [List.filter_cons, hend]
  · unfold extendSheets
    rw [List.filter_append, filter_name_removeSheet]
    simp [List.filter_cons, hdne]
  · intro s hs h1 h2
    unfold extendSheets
    refine List.mem_append.mpr (Or.inl ?_)
    exact mem_removeSheet _ s _ (mem_removeSheet _ s _ hs h1) h2

/-- Claim C6: re-running the report merge on the same day with an unchanged
target-set hash and identical matches is idempotent — the second run leaves
the artifact exactly as after the first, that artifact holds exactly one
date-named matches sheet and exactly one unmatched sheet for that date, and
every sheet of the prior artifact named for any other date survives. -/
theorem create_report_merge_idempotent (st : ReportState)
    (comms : List Community) (data : List CommunityResult)
    (ecs : List EmptyOutcome) (d : String) (sh0 : List Sheet)
    (hart : st.artifact = some sh0)
    (hhash : st.lastHash = some (calculate_communities_hash comms))
    (hecs : ecs ≠ []) :
    ((create_report ((create_report st comms data ecs d).1) comms data ecs d).1
        = (create_report st comms data ecs d).1)
    ∧ ∃ sh, (create_report ((create_report st comms data ecs d).1)
          comms data ecs d).1.artifact = some sh
        ∧ (sh.filter (fun s => s.name == d)).length = 1
        ∧ (sh.filter (fun s => s.name == emptySheetName d)).length = 1
        ∧ ∀ s ∈ sh0, s.name ≠ d → s.name ≠ emptySheetName d → s ∈ sh := by
  have h1 := create_report_extend st comms data ecs d sh0 hart hhash hecs
  have h2 := create_report_extend ((create_report st comms data ecs d).1)
    comms data ecs d (extendSheets sh0 data ecs d)
    (by rw [h1]) (by rw [h1]; exact hhash) hecs
  constructor
  · rw [h2, h1]
    simp only [extendSheets_idem]
  · refine ⟨extendSheets sh0 data ecs d, ?_, ?_, ?_, ?_⟩
    · rw [h2]
      simp only [extendSheets_idem]
    · exact (extendSheets_count sh0 data ecs d).1
    · exact (extendSheets_count sh0 data ecs d).2.1
    · exact (extendSheets_count sh0 data ecs d).2.2

/-- Witness for C6: a one-sheet prior artifact with matching recorded hash,
one empty outcome, run twice on date `"02.01.2024"`. -/
theorem create_report_merge_idempotent_witness :
    ((create_report ((create_report stW [] [] ecsW "02.01.2024").1)
        [] [] ecsW "02.01.2024").1
      = (create_report stW [] [] ecsW "02.01.2024").1)
    ∧ ∃ sh, (create_report ((create_report stW [] [] ecsW "02.01.2024").1)
          [] [] ecsW "02.01.2024").1.artifact = some sh
        ∧ (sh.filter (fun s => s.name == "02.01.2024")).length = 1
        ∧ (sh.filter (fun s => s.name == emptySheetName "02.01.2024")).length = 1
        ∧ ∀ s ∈ shW, s.name ≠ "02.01.2024" →
            s.name ≠ emptySheetName "02.01.2024" → s ∈ sh :=
  create_report_merge_idempotent stW [] [] ecsW "02.01.2024" shW rfl rfl
    (by decide)

end TextParse
